import Mathlib

/-!
Verification of the CloudWatch CPU-metrics retrieval core of the
faddom-aws-metrics-dashboard repository, embedded from
src/server/src/aws/ec2.ts (the CloudWatch section: constants, the
chunk planner inside fetchMetricsWithPeriod, calculateQueryChunks,
fetchChunkWithRetry, fetchChunksConcurrently and getCpuMetrics).

Modelling conventions:
- JavaScript epoch-millisecond timestamps (Date.getTime values) are
  modelled as Nat. All times handled by this app are positive epoch
  milliseconds, and at the single place the source subtracts
  (start.getTime() - 1000 in the range filter), truncated Nat
  subtraction yields exactly the same filter verdict for Nat
  timestamps as the possibly negative JS bound, since both bounds are
  at most max(start - 1000, 0).
- CPU utilisation values (JS floating point numbers) are modelled as
  Int; the engine never computes on values, it only moves, filters and
  deduplicates them, so any carrier with decidable equality is
  faithful.
- The external CloudWatch client call (client.send of a
  GetMetricDataCommand, including the trailing
  "?? \x7b Values: [], Timestamps: [] \x7d" default) is the external
  collaborator; it is a parameter of each embedded function. For the
  retry logic the collaborator is indexed by the attempt number so
  that time-varying outcomes (fail twice, then succeed) can be
  expressed; the source re-issues the identical request each attempt.
- The ad hoc throttling detection on a dynamically typed error value
  (statusCode 429, name ThrottlingException, or a message containing
  "throttl" or "rate", lines 361-365) is modelled by the Boolean field
  isThrottling of AwsError; errId keeps error identity so that
  "propagated unchanged" is expressible.
-/

namespace Ec2Metrics

/-- CloudWatch maximum datapoints per query (source line 279). -/
def MAX_DATAPOINTS : Nat := 1440

/-- Maximum concurrent requests to avoid throttling (source line 282). -/
def MAX_CONCURRENT_REQUESTS : Nat := 5

/-- Maximum number of retries for failed requests (source line 285). -/
def MAX_RETRIES : Nat := 3

/-- Base delay for exponential backoff in ms (source line 288). -/
def BASE_BACKOFF_MS : Nat := 200

/-- Result of one CloudWatch GetMetricData query for one chunk: two
parallel arrays. An entry of Timestamps is an Option to model a
missing or invalid Date, an entry of Values is an Option to model
undefined or null, both of which the aggregator checks for
(source line 455). The arrays may have different lengths. -/
structure MetricDataResult where
  Timestamps : List (Option Nat)
  Values : List (Option Int)
  deriving DecidableEq, Repr

/-- Model of an error thrown by the CloudWatch client. isThrottling
models the heuristic rate-limit detection of source lines 361-365;
errId keeps the identity of the error object. -/
structure AwsError where
  isThrottling : Bool
  errId : Nat
  deriving DecidableEq, Repr

/-- PERIOD_MAP lookup with the "?? 300" default of source line 420:
period in seconds for each interval key; unknown keys give 300. -/
def periodFor (interval : String) : Nat :=
  if interval = "1m" then 60
  else if interval = "5m" then 300
  else if interval = "15m" then 900
  else if interval = "1h" then 3600
  else 300

/-- Estimated datapoint count of source lines 314-315:
Math.ceil((rangeMs / 1000) / periodSeconds), which for real division
equals the ceiling of rangeMs / (1000 * periodSeconds), written here
as Nat ceiling division. -/
def estimatedDatapoints (rangeMs periodSeconds : Nat) : Nat :=
  (rangeMs + 1000 * periodSeconds - 1) / (1000 * periodSeconds)

/-- Embedding of calculateQueryChunks (source lines 313-324). -/
def calculateQueryChunks (rangeMs periodSeconds : Nat) : Nat :=
  if estimatedDatapoints rangeMs periodSeconds ≤ MAX_DATAPOINTS then 1
  else (estimatedDatapoints rangeMs periodSeconds + MAX_DATAPOINTS - 1) / MAX_DATAPOINTS

/-- Embedding of the chunk-splitting while loop of fetchMetricsWithPeriod
(source lines 549-568). Each round sets
chunkEndTime = min(currentStart + chunkDurationMs, endTime), pushes the
chunk when chunkEndTime > currentStart, advances currentStart to
chunkEndTime, and breaks once chunkEndTime >= endTime. When
chunkEndTime = currentStart (possible only for chunkDurationMs = 0,
which never occurs since chunkDurationMs = 1440 * period * 1000 with a
positive period) the source loop would spin forever; the embedding
returns [] there to be total. -/
def chunkLoop (chunkDurationMs endTime currentStart : Nat) : List (Nat × Nat) :=
  if currentStart < endTime then
    if _h : currentStart < min (currentStart + chunkDurationMs) endTime then
      if endTime ≤ min (currentStart + chunkDurationMs) endTime then
        [(currentStart, min (currentStart + chunkDurationMs) endTime)]
      else
        (currentStart, min (currentStart + chunkDurationMs) endTime) ::
          chunkLoop chunkDurationMs endTime (min (currentStart + chunkDurationMs) endTime)
    else []
  else []
termination_by endTime - currentStart
decreasing_by omega

/-- Embedding of the last-chunk fixup of source lines 573-579: if the
final chunk ends strictly before endTime, replace its end by endTime. -/
def patchLast : List (Nat × Nat) → Nat → List (Nat × Nat)
  | [], _ => []
  | [c], endTime => if c.2 < endTime then [(c.1, endTime)] else [c]
  | c :: c2 :: rest, endTime => c :: patchLast (c2 :: rest) endTime

/-- Chunk plan computed by fetchMetricsWithPeriod before any fetch
(source lines 532-579): a single chunk when calculateQueryChunks
returns 1, otherwise the while-loop chunks with the empty-guard of
lines 571-572 and the last-chunk fixup of lines 573-579. -/
def planChunks (startMs endMs periodSeconds rangeMs : Nat) : List (Nat × Nat) :=
  if calculateQueryChunks rangeMs periodSeconds = 1 then [(startMs, endMs)]
  else
    let chunks := chunkLoop (MAX_DATAPOINTS * periodSeconds * 1000) endMs startMs
    if chunks = [] then [(startMs, endMs)] else patchLast chunks endMs

/-- Type of the per-chunk metric source: chunk start ms, chunk end ms
and period in seconds to the raw query result. It abstracts a
successful fetchChunkWithRetry call for C2/C3/C6/C8/C9/C10, where the
failure path is irrelevant. -/
abbrev FetchFn := Nat → Nat → Nat → MetricDataResult

/-- Embedding of fetchMetricsWithPeriod (source lines 524-584) on the
success path: fetch every chunk of the plan at the given period. The
single-chunk branch of lines 534-537 issues exactly the one call
(startMs, endMs, period), which coincides with mapping over the
singleton plan. -/
def fetchMetricsWithPeriod (f : FetchFn) (startMs endMs periodSeconds rangeMs : Nat) :
    List MetricDataResult :=
  (planChunks startMs endMs periodSeconds rangeMs).map fun c => f c.1 c.2 periodSeconds

/-- Embedding of the hasData check of source lines 429-431:
some result has a non-empty Values or Timestamps array. -/
def hasDataB (results : List MetricDataResult) : Bool :=
  results.any fun r => decide (0 < r.Values.length) || decide (0 < r.Timestamps.length)

/-- Metric results of the first fetch, at the period of the requested
interval (source line 425). -/
def firstResults (f : FetchFn) (startMs endMs : Nat) (interval : String) :
    List MetricDataResult :=
  fetchMetricsWithPeriod f startMs endMs (periodFor interval) (endMs - startMs)

/-- Condition of the pre-emptive fallback of source line 433:
no data in the first fetch and the period is 60 seconds. -/
def preemptiveB (f : FetchFn) (startMs endMs : Nat) (interval : String) : Bool :=
  !hasDataB (firstResults f startMs endMs interval) && (periodFor interval == 60)

/-- Metric results actually aggregated: the 300-second re-fetch when
the pre-emptive fallback fired (source line 436), otherwise the first
fetch. -/
def finalResults (f : FetchFn) (startMs endMs : Nat) (interval : String) :
    List MetricDataResult :=
  if preemptiveB f startMs endMs interval then
    fetchMetricsWithPeriod f startMs endMs 300 (endMs - startMs)
  else firstResults f startMs endMs interval

/-- One entry of the collection loop of source lines 450-463: for index
i below both array lengths, keep the pair when the timestamp is a real
Date, the value is neither undefined nor null, and the timestamp lies
in the buffered range [startMs - 1000, endMs + 1000]. -/
def sampleAt (startMs endMs : Nat) (r : MetricDataResult) (i : Nat) : Option (Nat × Int) :=
  match r.Timestamps.getD i none, r.Values.getD i none with
  | some ts, some v =>
      if startMs - 1000 ≤ ts ∧ ts ≤ endMs + 1000 then some (ts, v) else none
  | _, _ => none

/-- Embedding of the per-result collection of source lines 444-464:
indices run below min(Timestamps.length, Values.length) and each index
passes the sampleAt guards. -/
def collectSamples (startMs endMs : Nat) (r : MetricDataResult) : List (Nat × Int) :=
  (List.range (min r.Timestamps.length r.Values.length)).filterMap
    (sampleAt startMs endMs r)

/-- Rounding of source line 477: Math.round(timestamp / 1000) * 1000.
For nonnegative x, Math.round(x) = floor(x + 1/2), hence the Nat form
(ts + 500) / 1000 * 1000. -/
def roundTs (ts : Nat) : Nat := (ts + 500) / 1000 * 1000

/-- Embedding of the dedup filter of source lines 473-481: a mutable
seen set threaded through the traversal; a sample is kept exactly when
its rounded timestamp was not seen before, and then its rounded
timestamp is added to the set. -/
def dedupAux (seen : List Nat) : List (Nat × Int) → List (Nat × Int)
  | [] => []
  | dp :: rest =>
      if roundTs dp.1 ∈ seen then dedupAux seen rest
      else dp :: dedupAux (roundTs dp.1 :: seen) rest

/-- Dedup pass started with an empty seen set (source line 473). -/
def dedup (l : List (Nat × Int)) : List (Nat × Int) := dedupAux [] l

/-- Comparison used by the sort of source line 482:
(a, b) => a.timestamp - b.timestamp. -/
def tsLe (a b : Nat × Int) : Prop := a.1 ≤ b.1

instance : DecidableRel tsLe := fun a b => (inferInstance : Decidable (a.1 ≤ b.1))

instance : IsTotal (Nat × Int) tsLe := ⟨fun a b => Nat.le_total a.1 b.1⟩

instance : IsTrans (Nat × Int) tsLe := ⟨fun _ _ _ => Nat.le_trans⟩

/-- Model of Array.prototype.sort with the numeric timestamp
comparator (source line 482) as a comparison sort; after dedup all
timestamps are distinct, so every comparison sort produces the same
output list. -/
def sortByTs (l : List (Nat × Int)) : List (Nat × Int) := List.insertionSort tsLe l

/-- The uniqueDataPoints list of source lines 474-482: collected valid
samples of all aggregated results, deduplicated, then sorted by
timestamp. -/
def uniquePoints (f : FetchFn) (startMs endMs : Nat) (interval : String) :
    List (Nat × Int) :=
  sortByTs (dedup (((finalResults f startMs endMs interval)).flatMap
    (collectSamples startMs endMs)))

/-- Embedding of the gap computation of source lines 488-494, kept in
milliseconds: the source computes deltaSec = deltaMs / 1000 by exact
real division and keeps positive deltas, so keeping positive deltaMs
values yields the same list scaled by 1000. Truncated Nat subtraction
only collapses a negative JS delta to 0, which the positivity filter
drops in both versions. -/
def computeGapsMs (u : List (Nat × Int)) : List Nat :=
  (u.zip u.tail).filterMap fun pr =>
    if 0 < pr.2.1 - pr.1.1 then some (pr.2.1 - pr.1.1) else none

/-- Embedding of the post-hoc coarse-resolution detection of source
lines 487-503: only when no adjustment happened yet, the requested
interval is 1m and there are at least two unique points; then the
minimum positive gap must exist and be at least 240 seconds
(240000 ms, as the source compares the exact real deltaSec with 240). -/
def postHocB (interval : String) (alreadyAdjusted : Bool) (u : List (Nat × Int)) : Bool :=
  if !alreadyAdjusted && (interval == "1m") && decide (1 < u.length) then
    match (computeGapsMs u).min? with
    | some minGap => decide (240000 ≤ minGap)
    | none => false
  else false

/-- Public result of getCpuMetrics. The formatted time label of source
lines 506-513 (toLocaleTimeString rendering of the timestamp) is
locale formatting of the timestamp field and carries no further data,
so a data point is the pair (timestamp ms, cpu value). -/
structure MetricResponse where
  data : List (Nat × Int)
  adjustedInterval : Option String
  deriving DecidableEq, Repr

/-- Embedding of getCpuMetrics (source lines 414-519). The mutable
adjustedInterval variable of the source is written single-assignment
style: it is "5m" when the pre-emptive fallback fired (line 435),
otherwise "5m" when the post-hoc gap detection fired (line 500,
guarded at line 487 by adjustedInterval being still unset), otherwise
unset. -/
def getCpuMetrics (f : FetchFn) (startMs endMs : Nat) (interval : String) :
    MetricResponse :=
  { data := uniquePoints f startMs endMs interval,
    adjustedInterval :=
      if preemptiveB f startMs endMs interval then some "5m"
      else if postHocB interval (preemptiveB f startMs endMs interval)
          (uniquePoints f startMs endMs interval) then some "5m"
      else none }

/-- Trace of the fetchMetricsWithPeriod invocations a getCpuMetrics
call performs, in order: the first fetch at the period of the
requested interval (source line 425), then exactly one 300-second
re-fetch when the pre-emptive fallback fired (source line 436). Each
phase records its period and its chunk plan. -/
def fetchPhases (f : FetchFn) (startMs endMs : Nat) (interval : String) :
    List (Nat × List (Nat × Nat)) :=
  (periodFor interval, planChunks startMs endMs (periodFor interval) (endMs - startMs)) ::
    (if preemptiveB f startMs endMs interval then
      [(300, planChunks startMs endMs 300 (endMs - startMs))]
    else [])

/-- Observable outcome of fetchChunkWithRetry: the final result, the
number of collaborator invocations, and the backoff delays slept
between attempts. -/
structure RetryOutcome where
  result : Except AwsError MetricDataResult
  attempts : Nat
  delays : List Nat
  deriving Repr

/-- Embedding of fetchChunkWithRetry (source lines 331-377). The
collaborator send is indexed by the attempt number (retryCount in the
source); a throttling failure with retryCount < MAX_RETRIES sleeps
BASE_BACKOFF_MS * 2 ^ retryCount ms and recurses with retryCount + 1,
any other outcome returns immediately. -/
def fetchChunkWithRetry (send : Nat → Except AwsError MetricDataResult)
    (retryCount : Nat) : RetryOutcome :=
  match send retryCount with
  | .ok r => { result := .ok r, attempts := 1, delays := [] }
  | .error e =>
      if h : e.isThrottling = true ∧ retryCount < MAX_RETRIES then
        let rest := fetchChunkWithRetry send (retryCount + 1)
        { result := rest.result,
          attempts := 1 + rest.attempts,
          delays := BASE_BACKOFF_MS * 2 ^ retryCount :: rest.delays }
      else { result := .error e, attempts := 1, delays := [] }
termination_by MAX_RETRIES - retryCount
decreasing_by
  rcases h with ⟨-, h2⟩
  simp only [MAX_RETRIES] at *
  omega

/-- Semantics of awaiting Promise.all over the already-determined
per-chunk outcomes of one batch: the list of results when all resolve,
otherwise the rejection of the first failing entry in batch order
(completion timing is modelled as batch order; which failing entry
wins only matters when several fail). -/
def promiseAll : List (Except AwsError MetricDataResult) →
    Except AwsError (List MetricDataResult)
  | [] => .ok []
  | x :: xs =>
      match x with
      | .error e => .error e
      | .ok a =>
          match promiseAll xs with
          | .error e => .error e
          | .ok rest => .ok (a :: rest)

/-- Embedding of fetchChunksConcurrently (source lines 383-400): the
chunks are processed in sequential batches of MAX_CONCURRENT_REQUESTS;
each batch runs its fetches concurrently and is awaited before the
next batch starts, so a failed batch aborts the whole call and the
batch results are appended in input order. fetchOne abstracts
chunk => fetchChunkWithRetry(instanceId, chunk.start, chunk.end, period). -/
def fetchChunksConcurrently (fetchOne : Nat × Nat → Except AwsError MetricDataResult) :
    List (Nat × Nat) → Except AwsError (List MetricDataResult)
  | [] => .ok []
  | c :: rest =>
      match promiseAll (((c :: rest).take MAX_CONCURRENT_REQUESTS).map fetchOne) with
      | .error e => .error e
      | .ok batchResults =>
          match fetchChunksConcurrently fetchOne ((c :: rest).drop MAX_CONCURRENT_REQUESTS) with
          | .error e => .error e
          | .ok laterResults => .ok (batchResults ++ laterResults)
termination_by l => l.length
decreasing_by
  simp only [List.length_drop, List.length_cons, MAX_CONCURRENT_REQUESTS]
  omega

/-! Retry lemmas (claims C4 and C5). -/

lemma maxRetries_eq : MAX_RETRIES = 3 := rfl

lemma fetchChunkWithRetry_ok (send : Nat → Except AwsError MetricDataResult)
    (rc : Nat) (r : MetricDataResult) (h : send rc = .ok r) :
    fetchChunkWithRetry send rc = { result := .ok r, attempts := 1, delays := [] } := by
  rw [fetchChunkWithRetry, h]

lemma fetchChunkWithRetry_throttle (send : Nat → Except AwsError MetricDataResult)
    (rc : Nat) (e : AwsError) (h : send rc = .error e)
    (hth : e.isThrottling = true) (hlt : rc < MAX_RETRIES) :
    fetchChunkWithRetry send rc =
      { result := (fetchChunkWithRetry send (rc + 1)).result,
        attempts := 1 + (fetchChunkWithRetry send (rc + 1)).attempts,
        delays := BASE_BACKOFF_MS * 2 ^ rc :: (fetchChunkWithRetry send (rc + 1)).delays } := by
  rw [fetchChunkWithRetry, h]
  exact dif_pos ⟨hth, hlt⟩

lemma fetchChunkWithRetry_fail (send : Nat → Except AwsError MetricDataResult)
    (rc : Nat) (e : AwsError) (h : send rc = .error e)
    (hcond : ¬(e.isThrottling = true ∧ rc < MAX_RETRIES)) :
    fetchChunkWithRetry send rc = { result := .error e, attempts := 1, delays := [] } := by
  rw [fetchChunkWithRetry, h]
  exact dif_neg hcond

lemma fetchChunkWithRetry_success (send : Nat → Except AwsError MetricDataResult)
    (r : MetricDataResult) :
    ∀ k retryCount, retryCount + k ≤ MAX_RETRIES →
      (∀ j, j < k → ∃ e, send (retryCount + j) = .error e ∧ e.isThrottling = true) →
      send (retryCount + k) = .ok r →
      (fetchChunkWithRetry send retryCount).result = .ok r ∧
      (fetchChunkWithRetry send retryCount).attempts = k + 1 := by
  intro k
  induction k with
  | zero =>
    intro rc hle hfail hok
    rw [Nat.add_zero] at hok
    rw [fetchChunkWithRetry_ok send rc r hok]
    exact ⟨rfl, rfl⟩
  | succ k ih =>
    intro rc hle hfail hok
    obtain ⟨e, he, hth⟩ := hfail 0 (Nat.succ_pos k)
    rw [Nat.add_zero] at he
    have hlt : rc < MAX_RETRIES := by rw [maxRetries_eq] at *; omega
    have hrec := ih (rc + 1) (by omega)
      (fun j hj => by
        have h2 := hfail (j + 1) (by omega)
        rwa [show rc + (j + 1) = rc + 1 + j by omega] at h2)
      (by rwa [show rc + 1 + k = rc + (k + 1) by omega])
    rw [fetchChunkWithRetry_throttle send rc e he hth hlt]
    refine ⟨hrec.1, ?_⟩
    simp only [hrec.2]
    omega

/-- Claim C4: on a collaborator that fails with a throttling signal on
every attempt, fetchChunkWithRetry issues exactly 4 invocations with
backoff delays 200, 400 and 800 ms between them, and propagates the
error of the final attempt unchanged; and when the collaborator
returns throttling failures for the first k attempts (k at most 3) and
succeeds on attempt k, the fetch succeeds after exactly k + 1
invocations. -/
theorem spec_retry_backoff_c4
    (sendA : Nat → Except AwsError MetricDataResult) (errF : Nat → AwsError)
    (hsendA : ∀ n, sendA n = .error (errF n))
    (hth : ∀ n, (errF n).isThrottling = true)
    (sendB : Nat → Except AwsError MetricDataResult) (k : Nat) (r : MetricDataResult)
    (hk : k ≤ MAX_RETRIES)
    (hfails : ∀ j, j < k → ∃ e, sendB j = .error e ∧ e.isThrottling = true)
    (hok : sendB k = .ok r) :
    fetchChunkWithRetry sendA 0 =
      { result := .error (errF 3), attempts := 4, delays := [200, 400, 800] } ∧
    (fetchChunkWithRetry sendB 0).result = .ok r ∧
    (fetchChunkWithRetry sendB 0).attempts = k + 1 := by
  refine ⟨?_, ?_⟩
  · rw [fetchChunkWithRetry_throttle sendA 0 (errF 0) (hsendA 0) (hth 0)
      (by rw [maxRetries_eq]; omega)]
    rw [fetchChunkWithRetry_throttle sendA 1 (errF 1) (hsendA 1) (hth 1)
      (by rw [maxRetries_eq]; omega)]
    rw [fetchChunkWithRetry_throttle sendA 2 (errF 2) (hsendA 2) (hth 2)
      (by rw [maxRetries_eq]; omega)]
    rw [fetchChunkWithRetry_fail sendA 3 (errF 3) (hsendA 3) (by rw [maxRetries_eq]; omega)]
    norm_num [BASE_BACKOFF_MS]
  · exact fetchChunkWithRetry_success sendB r k 0 (by omega)
      (fun j hj => by simpa using hfails j hj) (by simpa using hok)

/-- Concrete collaborator that always fails with a throttling error. -/
def c4SendA : Nat → Except AwsError MetricDataResult := fun n => .error ⟨true, n⟩

/-- Concrete collaborator that throttles twice, then succeeds. -/
def c4SendB : Nat → Except AwsError MetricDataResult := fun n =>
  if n < 2 then .error ⟨true, n⟩ else .ok ⟨[some 1000], [some 5]⟩

/-- Witness for C4 at a concrete collaborator pair. -/
theorem spec_retry_backoff_c4_witness :
    fetchChunkWithRetry c4SendA 0 =
      { result := .error ⟨true, 3⟩, attempts := 4, delays := [200, 400, 800] } ∧
    (fetchChunkWithRetry c4SendB 0).result = .ok ⟨[some 1000], [some 5]⟩ ∧
    (fetchChunkWithRetry c4SendB 0).attempts = 3 :=
  spec_retry_backoff_c4 c4SendA (fun n => ⟨true, n⟩) (fun _ => rfl) (fun _ => rfl)
    c4SendB 2 ⟨[some 1000], [some 5]⟩ (by rw [maxRetries_eq]; omega)
    (fun j hj => ⟨⟨true, j⟩, by simp [c4SendB, hj], rfl⟩)
    (by simp [c4SendB])

/-- Claim C5: a non-throttling failure on the first attempt is
propagated unchanged with exactly one collaborator invocation and no
backoff sleep. -/
theorem spec_nonthrottle_propagates_c5
    (send : Nat → Except AwsError MetricDataResult) (e : AwsError)
    (h0 : send 0 = .error e) (hnt : e.isThrottling = false) :
    fetchChunkWithRetry send 0 = { result := .error e, attempts := 1, delays := [] } :=
  fetchChunkWithRetry_fail send 0 e h0 (by simp [hnt])

/-- Concrete collaborator that fails with a non-throttling error. -/
def c5Send : Nat → Except AwsError MetricDataResult := fun _ => .error ⟨false, 9⟩

/-- Witness for C5 at a concrete collaborator. -/
theorem spec_nonthrottle_propagates_c5_witness :
    c5Send 0 = .error ⟨false, 9⟩ ∧
    fetchChunkWithRetry c5Send 0 =
      { result := .error ⟨false, 9⟩, attempts := 1, delays := [] } :=
  ⟨rfl, spec_nonthrottle_propagates_c5 c5Send ⟨false, 9⟩ rfl rfl⟩

/-! Dedup lemmas (claim C6). -/

lemma dedupAux_filter_mem (r : Nat) :
    ∀ (l : List (Nat × Int)) (seen : List Nat), r ∈ seen →
      (dedupAux seen l).filter (fun dp => roundTs dp.1 == r) = [] := by
  intro l
  induction l with
  | nil => intro seen _; rfl
  | cons dp rest ih =>
    intro seen hr
    rw [dedupAux]
    by_cases hk : roundTs dp.1 ∈ seen
    · rw [if_pos hk]
      exact ih seen hr
    · rw [if_neg hk]
      have hne : (roundTs dp.1 == r) = false := by
        simp only [beq_eq_false_iff_ne, ne_eq]
        intro h
        exact hk (h ▸ hr)
      rw [List.filter_cons, hne]
      simp only [Bool.false_eq_true, if_false]
      exact ih (roundTs dp.1 :: seen) (List.mem_cons_of_mem _ hr)

lemma dedupAux_filter_not_mem (r : Nat) :
    ∀ (l : List (Nat × Int)) (seen : List Nat), r ∉ seen →
      (dedupAux seen l).filter (fun dp => roundTs dp.1 == r) =
        (l.filter (fun dp => roundTs dp.1 == r)).take 1 := by
  intro l
  induction l with
  | nil => intro seen _; rfl
  | cons dp rest ih =>
    intro seen hr
    rw [dedupAux, List.filter_cons]
    by_cases hk : roundTs dp.1 ∈ seen
    · have hne : (roundTs dp.1 == r) = false := by
        simp only [beq_eq_false_iff_ne, ne_eq]
        intro h
        exact hr (h ▸ hk)
      rw [if_pos hk, hne]
      simp only [Bool.false_eq_true, if_false]
      exact ih seen hr
    · rw [if_neg hk]
      by_cases heq : roundTs dp.1 = r
      · have hbeq : (roundTs dp.1 == r) = true := beq_iff_eq.mpr heq
        rw [List.filter_cons, hbeq]
        simp only [if_true]
        rw [dedupAux_filter_mem r rest (roundTs dp.1 :: seen)
          (heq ▸ List.mem_cons_self (roundTs dp.1) seen)]
        simp
      · have hbeq : (roundTs dp.1 == r) = false := by
          simp [heq]
        rw [List.filter_cons, hbeq]
        simp only [Bool.false_eq_true, if_false]
        exact ih (roundTs dp.1 :: seen) (by
          intro h
          rcases List.mem_cons.mp h with h1 | h2
          · exact heq h1.symm
          · exact hr h2)

/-- Claim C6 (amended): deduplication keys each sample by its timestamp
rounded to the nearest second; among the samples of the input whose
timestamps round to any given second, exactly the first one in input
order survives (the output restricted to that key is the one-element
prefix of the input restricted to that key, hence empty exactly when
no such sample exists). Samples with equal timestamps always collide;
samples with sub-second-different timestamps collide only when they
round to the same second. -/
theorem spec_dedup_first_c6 (l : List (Nat × Int)) (r : Nat) :
    (dedup l).filter (fun dp => roundTs dp.1 == r) =
      (l.filter (fun dp => roundTs dp.1 == r)).take 1 :=
  dedupAux_filter_not_mem r l [] (List.not_mem_nil r)

/-- Counterexample to claim C6 as stated: the samples (1400 ms, 10) and
(1600 ms, 20) have sub-second-different timestamps (200 ms apart), yet
deduplication keeps both, because 1400 rounds to second 1 and 1600
rounds to second 2; the output does not contain exactly one point for
them. -/
theorem spec_dedup_c6_counterexample :
    (1600 : Nat) - 1400 < 1000 ∧
    dedup [(1400, 10), (1600, 20)] = [(1400, 10), (1600, 20)] ∧
    (dedup [(1400, 10), (1600, 20)]).length ≠ 1 := by decide

/-! Pre-emptive fallback lemmas (claims C2 and C10). -/

lemma periodFor_1m : periodFor "1m" = 60 := by decide

lemma hasDataB_eq_false (results : List MetricDataResult)
    (h : ∀ r ∈ results, r = ⟨[], []⟩) : hasDataB results = false := by
  rw [hasDataB, List.any_eq_false]
  intro x hx
  rw [h x hx]
  decide

lemma preemptiveB_of_empty (f : FetchFn) (s e : Nat)
    (h60 : ∀ c ∈ planChunks s e 60 (e - s), f c.1 c.2 60 = ⟨[], []⟩) :
    preemptiveB f s e "1m" = true := by
  rw [preemptiveB]
  have h1 : hasDataB (firstResults f s e "1m") = false := by
    apply hasDataB_eq_false
    intro r hr
    rw [firstResults, fetchMetricsWithPeriod, periodFor_1m] at hr
    obtain ⟨c, hc, hcr⟩ := List.mem_map.mp hr
    rw [← hcr]
    exact h60 c hc
  rw [h1, periodFor_1m]
  decide

lemma finalResults_of_preemptive (f : FetchFn) (s e : Nat) (i : String)
    (h : preemptiveB f s e i = true) :
    finalResults f s e i = fetchMetricsWithPeriod f s e 300 (e - s) := by
  rw [finalResults, if_pos h]

lemma dedup_ne_nil (l : List (Nat × Int)) (h : l ≠ []) : dedup l ≠ [] := by
  cases l with
  | nil => exact absurd rfl h
  | cons dp rest =>
    rw [dedup, dedupAux, if_neg (List.not_mem_nil _)]
    simp

lemma sortByTs_ne_nil (l : List (Nat × Int)) (h : l ≠ []) : sortByTs l ≠ [] := by
  intro hnil
  have hp := (List.perm_insertionSort tsLe l).length_eq
  rw [sortByTs] at hnil
  rw [hnil] at hp
  exact h (List.length_eq_zero.mp hp.symm)

lemma fetchPhases_le_two (f : FetchFn) (s e : Nat) (i : String) :
    (fetchPhases f s e i).length ≤ 2 := by
  rw [fetchPhases]
  split <;> simp

/-- Conclusion of claim C2 (amended form): after an all-empty 60-second
fetch of a 1m request there are exactly two fetch phases, the first at
period 60 and the second a full re-fetch of the identical range at
period 300; the result is marked with adjustedInterval 5m; if some
chunk of the 300-second plan yields at least one valid sample (one
that survives the aggregator validity filter: non-null value and
timestamp within one second of the range) the returned points are
non-empty; and no query ever has more than two fetch phases. -/
def C2Conclusion (f : FetchFn) (s e : Nat) : Prop :=
  fetchPhases f s e "1m" =
    [(60, planChunks s e 60 (e - s)), (300, planChunks s e 300 (e - s))] ∧
  (getCpuMetrics f s e "1m").adjustedInterval = some "5m" ∧
  ((∃ c ∈ planChunks s e 300 (e - s), collectSamples s e (f c.1 c.2 300) ≠ []) →
    (getCpuMetrics f s e "1m").data ≠ []) ∧
  (∀ (f2 : FetchFn) (s2 e2 : Nat) (i2 : String), (fetchPhases f2 s2 e2 i2).length ≤ 2)

/-- Claim C2 (amended): see C2Conclusion. The amendment strengthens
"the 300s fetch returns non-empty samples" to "the 300s fetch returns
at least one sample passing the validity filter", as forced by the
counterexample spec_c2_counterexample. -/
theorem spec_c2_amended (f : FetchFn) (s e : Nat)
    (h60 : ∀ c ∈ planChunks s e 60 (e - s), f c.1 c.2 60 = ⟨[], []⟩) :
    C2Conclusion f s e := by
  have hpre := preemptiveB_of_empty f s e h60
  refine ⟨?_, ?_, ?_, fun f2 s2 e2 i2 => fetchPhases_le_two f2 s2 e2 i2⟩
  · rw [fetchPhases, hpre, periodFor_1m]
    simp
  · rw [getCpuMetrics]
    simp only [hpre, if_true]
  · rintro ⟨c, hc, hne⟩
    rw [getCpuMetrics]
    simp only []
    apply sortByTs_ne_nil
    apply dedup_ne_nil
    intro hflat
    rw [List.flatMap_eq_nil_iff] at hflat
    apply hne
    apply hflat
    rw [finalResults_of_preemptive f s e "1m" hpre, fetchMetricsWithPeriod]
    exact List.mem_map_of_mem _ hc

/-- Concrete source for the C2 witness: empty at period 60, one valid
in-range sample at period 300. -/
def c2WitF : FetchFn := fun _ _ p =>
  if p == 300 then ⟨[some 5000], [some 42]⟩ else ⟨[], []⟩

/-- Witness for the amended claim C2 at a concrete source and range. -/
theorem spec_c2_amended_witness :
    c2WitF 0 60000 60 = ⟨[], []⟩ ∧
    collectSamples 0 60000 (c2WitF 0 60000 300) ≠ [] ∧
    C2Conclusion c2WitF 0 60000 :=
  ⟨by decide, by decide, spec_c2_amended c2WitF 0 60000 (by decide)⟩

/-- Concrete source refuting claim C2 as stated: empty at period 60,
and at period 300 a non-empty sample list whose single timestamp
(999000000 ms) lies far outside the requested range 0..60000 ms. -/
def c2CexF : FetchFn := fun _ _ p =>
  if p == 300 then ⟨[some 999000000], [some 50]⟩ else ⟨[], []⟩

/-- Counterexample to claim C2 as stated: the 300-second re-fetch
returns a non-empty sample list, yet the returned points are empty,
because the only sample is discarded by the range filter of the
aggregator. -/
theorem spec_c2_counterexample :
    c2CexF 0 60000 60 = ⟨[], []⟩ ∧
    (c2CexF 0 60000 300).Timestamps.length = 1 ∧
    (getCpuMetrics c2CexF 0 60000 "1m").adjustedInterval = some "5m" ∧
    (getCpuMetrics c2CexF 0 60000 "1m").data = [] := by decide

/-- Claim C10: when the 60-second fetch of a 1m request and the
300-second fallback re-fetch both return zero samples for every chunk,
getCpuMetrics still returns adjustedInterval 5m together with an empty
points array; the marker does not depend on the re-fetch returning
data. -/
theorem spec_c10_empty_both (f : FetchFn) (s e : Nat)
    (h60 : ∀ c ∈ planChunks s e 60 (e - s), f c.1 c.2 60 = ⟨[], []⟩)
    (h300 : ∀ c ∈ planChunks s e 300 (e - s), f c.1 c.2 300 = ⟨[], []⟩) :
    getCpuMetrics f s e "1m" = ⟨[], some "5m"⟩ := by
  have hpre := preemptiveB_of_empty f s e h60
  have hu : uniquePoints f s e "1m" = [] := by
    rw [uniquePoints, finalResults_of_preemptive f s e "1m" hpre, fetchMetricsWithPeriod]
    have : ((planChunks s e 300 (e - s)).map fun c => f c.1 c.2 300).flatMap
        (collectSamples s e) = [] := by
      rw [List.flatMap_eq_nil_iff]
      intro x hx
      obtain ⟨c, hc, hcr⟩ := List.mem_map.mp hx
      rw [← hcr, h300 c hc]
      rfl
    rw [this]
    rfl
  rw [getCpuMetrics, hu, hpre]
  simp

/-- Concrete source returning no samples at any period. -/
def c10F : FetchFn := fun _ _ _ => ⟨[], []⟩

/-- Witness for C10 at a concrete always-empty source. -/
theorem spec_c10_empty_both_witness :
    c10F 0 60000 60 = ⟨[], []⟩ ∧
    getCpuMetrics c10F 0 60000 "1m" = ⟨[], some "5m"⟩ :=
  ⟨rfl, spec_c10_empty_both c10F 0 60000 (by decide) (by decide)⟩

/-! Scheduler lemmas (claim C7). -/

lemma promiseAll_cons_err (e : AwsError) (xs : List (Except AwsError MetricDataResult)) :
    promiseAll (.error e :: xs) = .error e := rfl

lemma promiseAll_cons_ok_ok (a : MetricDataResult) (xs : List (Except AwsError MetricDataResult))
    (rest : List MetricDataResult) (h : promiseAll xs = .ok rest) :
    promiseAll (.ok a :: xs) = .ok (a :: rest) := by
  have hstep : promiseAll (.ok a :: xs) =
      match promiseAll xs with
      | .error e => .error e
      | .ok rest => .ok (a :: rest) := rfl
  rw [hstep, h]

lemma promiseAll_cons_ok_err (a : MetricDataResult) (xs : List (Except AwsError MetricDataResult))
    (e : AwsError) (h : promiseAll xs = .error e) :
    promiseAll (.ok a :: xs) = .error e := by
  have hstep : promiseAll (.ok a :: xs) =
      match promiseAll xs with
      | .error e => .error e
      | .ok rest => .ok (a :: rest) := rfl
  rw [hstep, h]

lemma promiseAll_map_ok (fo : Nat × Nat → Except AwsError MetricDataResult)
    (g : Nat × Nat → MetricDataResult) :
    ∀ l : List (Nat × Nat), (∀ c ∈ l, fo c = .ok (g c)) →
      promiseAll (l.map fo) = .ok (l.map g) := by
  intro l
  induction l with
  | nil => intro _; rfl
  | cons c t ih =>
    intro h
    rw [List.map_cons, List.map_cons, h c (List.mem_cons_self c t)]
    exact promiseAll_cons_ok_ok _ _ _ (ih fun x hx => h x (List.mem_cons_of_mem c hx))

lemma promiseAll_map_isOk (fo : Nat × Nat → Except AwsError MetricDataResult) :
    ∀ l : List (Nat × Nat), (∀ c ∈ l, ∀ e, fo c ≠ .error e) →
      ∃ rs, promiseAll (l.map fo) = .ok rs := by
  intro l
  induction l with
  | nil => intro _; exact ⟨[], rfl⟩
  | cons c t ih =>
    intro h
    obtain ⟨rs, hrs⟩ := ih fun x hx => h x (List.mem_cons_of_mem c hx)
    cases hfo : fo c with
    | error e => exact absurd hfo (h c (List.mem_cons_self c t) e)
    | ok a =>
      refine ⟨a :: rs, ?_⟩
      rw [List.map_cons, hfo]
      exact promiseAll_cons_ok_ok _ _ _ hrs

lemma promiseAll_map_err (fo : Nat × Nat → Except AwsError MetricDataResult) :
    ∀ l : List (Nat × Nat), (∃ c ∈ l, ∃ e, fo c = .error e) →
      ∃ c ∈ l, ∃ e, fo c = .error e ∧ promiseAll (l.map fo) = .error e := by
  intro l
  induction l with
  | nil => rintro ⟨c, hc, _⟩; exact absurd hc (List.not_mem_nil c)
  | cons c t ih =>
    rintro ⟨x, hx, e, he⟩
    cases hfo : fo c with
    | error e0 =>
      refine ⟨c, List.mem_cons_self c t, e0, hfo, ?_⟩
      rw [List.map_cons, hfo]
      exact promiseAll_cons_err e0 _
    | ok a =>
      have hxt : x ∈ t := by
        rcases List.mem_cons.mp hx with h1 | h2
        · subst h1; rw [hfo] at he; exact absurd he (by simp)
        · exact h2
      obtain ⟨x2, hx2, e2, he2, hpa⟩ := ih ⟨x, hxt, e, he⟩
      refine ⟨x2, List.mem_cons_of_mem c hx2, e2, he2, ?_⟩
      rw [List.map_cons, hfo]
      exact promiseAll_cons_ok_err _ _ _ hpa

lemma maxConcurrent_eq : MAX_CONCURRENT_REQUESTS = 5 := rfl

lemma fCC_nil (fo : Nat × Nat → Except AwsError MetricDataResult) :
    fetchChunksConcurrently fo [] = .ok [] := by
  rw [fetchChunksConcurrently]

lemma fCC_cons_eq (fo : Nat × Nat → Except AwsError MetricDataResult)
    (c : Nat × Nat) (rest : List (Nat × Nat)) :
    fetchChunksConcurrently fo (c :: rest) =
      match promiseAll (((c :: rest).take MAX_CONCURRENT_REQUESTS).map fo) with
      | .error e => .error e
      | .ok batchResults =>
          match fetchChunksConcurrently fo ((c :: rest).drop MAX_CONCURRENT_REQUESTS) with
          | .error e => .error e
          | .ok laterResults => .ok (batchResults ++ laterResults) := by
  rw [fetchChunksConcurrently]

lemma fCC_map_ok (fo : Nat × Nat → Except AwsError MetricDataResult)
    (g : Nat × Nat → MetricDataResult) :
    ∀ (n : Nat) (l : List (Nat × Nat)), l.length ≤ n →
      (∀ c ∈ l, fo c = .ok (g c)) →
      fetchChunksConcurrently fo l = .ok (l.map g) := by
  intro n
  induction n with
  | zero =>
    intro l hl _
    rw [List.length_eq_zero.mp (Nat.le_zero.mp hl)]
    exact fCC_nil fo
  | succ n ih =>
    intro l hl h
    cases l with
    | nil => exact fCC_nil fo
    | cons c rest =>
      rw [fCC_cons_eq]
      rw [promiseAll_map_ok fo g _ fun x hx => h x (List.take_subset _ _ hx)]
      rw [ih ((c :: rest).drop MAX_CONCURRENT_REQUESTS)
        (by rw [List.length_drop, maxConcurrent_eq]; simp at hl ⊢; omega)
        (fun x hx => h x (List.drop_subset _ _ hx))]
      show Except.ok ((((c :: rest).take MAX_CONCURRENT_REQUESTS).map g) ++
        (((c :: rest).drop MAX_CONCURRENT_REQUESTS).map g)) =
        Except.ok ((c :: rest).map g)
      rw [← List.map_append, List.take_append_drop]

lemma fCC_map_err (fo : Nat × Nat → Except AwsError MetricDataResult) :
    ∀ (n : Nat) (l : List (Nat × Nat)), l.length ≤ n →
      (∃ c ∈ l, ∃ e, fo c = .error e) →
      ∃ c ∈ l, ∃ e, fo c = .error e ∧ fetchChunksConcurrently fo l = .error e := by
  intro n
  induction n with
  | zero =>
    intro l hl hex
    rw [List.length_eq_zero.mp (Nat.le_zero.mp hl)] at hex
    rcases hex with ⟨c, hc, _⟩
    exact absurd hc (List.not_mem_nil c)
  | succ n ih =>
    intro l hl hex
    cases l with
    | nil =>
      rcases hex with ⟨c, hc, _⟩
      exact absurd hc (List.not_mem_nil c)
    | cons c rest =>
      by_cases hbatch : ∃ x ∈ (c :: rest).take MAX_CONCURRENT_REQUESTS, ∃ e, fo x = .error e
      · obtain ⟨x, hx, e, he, hpa⟩ := promiseAll_map_err fo _ hbatch
        refine ⟨x, List.take_subset _ _ hx, e, he, ?_⟩
        rw [fCC_cons_eq, hpa]
      · have hok : ∀ x ∈ (c :: rest).take MAX_CONCURRENT_REQUESTS, ∀ e, fo x ≠ .error e := by
          intro x hx e he
          exact hbatch ⟨x, hx, e, he⟩
        obtain ⟨rs, hpa⟩ := promiseAll_map_isOk fo _ hok
        rcases hex with ⟨x, hx, e, he⟩
        have hxd : x ∈ (c :: rest).drop MAX_CONCURRENT_REQUESTS := by
          rw [← List.take_append_drop MAX_CONCURRENT_REQUESTS (c :: rest)] at hx
          rcases List.mem_append.mp hx with h1 | h2
          · exact absurd he (hok x h1 e)
          · exact h2
        obtain ⟨x2, hx2, e2, he2, hfcc⟩ := ih ((c :: rest).drop MAX_CONCURRENT_REQUESTS)
          (by rw [List.length_drop, maxConcurrent_eq]; simp at hl ⊢; omega)
          ⟨x, hxd, e, he⟩
        refine ⟨x2, List.drop_subset _ _ hx2, e2, he2, ?_⟩
        rw [fCC_cons_eq, hpa, hfcc]

/-- Claim C7: the concurrent chunk fetcher returns exactly one result
per input chunk in input order when every per-chunk retried fetch
succeeds (the output is Except.ok of the input list mapped through the
per-chunk success values), and when some per-chunk fetch ultimately
fails after its own retries, the whole call returns Except.error with
the error of a failing chunk, so no partial result is ever produced
and data of already-fetched chunks is discarded. -/
theorem spec_scheduler_c7 (send : Nat × Nat → Nat → Except AwsError MetricDataResult)
    (chunks : List (Nat × Nat)) (g : Nat × Nat → MetricDataResult) :
    ((∀ c ∈ chunks, (fetchChunkWithRetry (send c) 0).result = .ok (g c)) →
      fetchChunksConcurrently (fun c => (fetchChunkWithRetry (send c) 0).result) chunks =
        .ok (chunks.map g)) ∧
    ((∃ c ∈ chunks, ∃ e, (fetchChunkWithRetry (send c) 0).result = .error e) →
      ∃ c ∈ chunks, ∃ e, (fetchChunkWithRetry (send c) 0).result = .error e ∧
        fetchChunksConcurrently (fun c => (fetchChunkWithRetry (send c) 0).result) chunks =
          .error e) :=
  ⟨fun h => fCC_map_ok _ g chunks.length chunks le_rfl h,
   fun hex => fCC_map_err _ chunks.length chunks le_rfl hex⟩

def c7Chunks : List (Nat × Nat) := [(0, 100), (100, 200)]

def c7SendOk : Nat × Nat → Nat → Except AwsError MetricDataResult :=
  fun c _ => .ok ⟨[some c.1], [some 1]⟩

def c7G : Nat × Nat → MetricDataResult := fun c => ⟨[some c.1], [some 1]⟩

def c7SendErr : Nat × Nat → Nat → Except AwsError MetricDataResult :=
  fun _ _ => .error ⟨false, 7⟩

/-- Witness for C7: an always-successful source yields both results in
order; an always-failing source yields the failure. -/
theorem spec_scheduler_c7_witness :
    fetchChunksConcurrently (fun c => (fetchChunkWithRetry (c7SendOk c) 0).result) c7Chunks =
      .ok (c7Chunks.map c7G) ∧
    fetchChunksConcurrently (fun c => (fetchChunkWithRetry (c7SendErr c) 0).result) c7Chunks =
      .error ⟨false, 7⟩ := by
  constructor
  · exact (spec_scheduler_c7 c7SendOk c7Chunks c7G).1 (fun c hc => by
      rw [fetchChunkWithRetry_ok (c7SendOk c) 0 (c7G c) rfl])
  · have hres : ∀ c : Nat × Nat, (fetchChunkWithRetry (c7SendErr c) 0).result =
        .error ⟨false, 7⟩ := by
      intro c
      rw [fetchChunkWithRetry_fail (c7SendErr c) 0 ⟨false, 7⟩ rfl (by simp)]
    obtain ⟨c, hc, e, he, hfcc⟩ := (spec_scheduler_c7 c7SendErr c7Chunks c7G).2
      ⟨(0, 100), by simp [c7Chunks], ⟨false, 7⟩, hres (0, 100)⟩
    rw [hres c] at he
    injection he with he2
    rw [← he2] at hfcc
    exact hfcc

/-! Post-hoc gap detection lemmas (claim C3). -/

lemma preemptiveB_of_hasData (f : FetchFn) (s e : Nat) (i : String)
    (h : hasDataB (firstResults f s e i) = true) : preemptiveB f s e i = false := by
  rw [preemptiveB, h]
  rfl

lemma finalResults_of_not_preemptive (f : FetchFn) (s e : Nat) (i : String)
    (h : preemptiveB f s e i = false) :
    finalResults f s e i = firstResults f s e i := by
  rw [finalResults, h]
  simp

lemma min?_mem_gaps (u : List (Nat × Int)) (m : Nat)
    (hmin : (computeGapsMs u).min? = some m) : 1 < u.length := by
  match u with
  | [] => simp [computeGapsMs] at hmin
  | [x] => simp [computeGapsMs] at hmin
  | a :: b :: t => simp

lemma postHocB_fires (u : List (Nat × Int)) (m : Nat)
    (hmin : (computeGapsMs u).min? = some m) (hm : 240000 ≤ m) :
    postHocB "1m" false u = true := by
  have hlen := min?_mem_gaps u m hmin
  rw [postHocB]
  rw [if_pos (by simp [hlen])]
  rw [hmin]
  simpa using hm

lemma postHocB_of_adjusted (i : String) (u : List (Nat × Int)) :
    postHocB i true u = false := by
  rw [postHocB]
  simp

lemma periodFor_ne_60 (i : String) (h : i ≠ "1m") : periodFor i ≠ 60 := by
  rw [periodFor, if_neg h]
  split_ifs <;> norm_num

lemma preemptiveB_ne_1m (f : FetchFn) (s e : Nat) (i : String) (h : i ≠ "1m") :
    preemptiveB f s e i = false := by
  rw [preemptiveB]
  have h2 : (periodFor i == 60) = false := by
    rw [beq_eq_false_iff_ne]
    exact periodFor_ne_60 i h
  rw [h2, Bool.and_false]

lemma postHocB_ne_1m (i : String) (h : i ≠ "1m") (b : Bool) (u : List (Nat × Int)) :
    postHocB i b u = false := by
  rw [postHocB]
  have h2 : (i == "1m") = false := by
    rw [beq_eq_false_iff_ne]
    exact h
  simp [h2]

/-- Conclusion of claim C3: with samples present in the first 1m
fetch, the pre-emptive fallback does not fire, there is exactly one
fetch phase (at period 60), the aggregated results are those of the
first fetch (values used as-is); whenever the minimum positive gap
between consecutive deduplicated sorted timestamps is at least 240
seconds (240000 ms) the result is labelled adjustedInterval 5m while
the data stays the first-fetch points; the post-hoc branch never fires
once an adjustment happened (mutual exclusion); and for any requested
interval other than 1m neither fallback path ever fires, leaving
adjustedInterval unset and a single fetch phase. -/
def C3Conclusion (f : FetchFn) (s e : Nat) : Prop :=
  preemptiveB f s e "1m" = false ∧
  fetchPhases f s e "1m" = [(60, planChunks s e 60 (e - s))] ∧
  finalResults f s e "1m" = fetchMetricsWithPeriod f s e 60 (e - s) ∧
  (∀ m, (computeGapsMs (uniquePoints f s e "1m")).min? = some m → 240000 ≤ m →
    (getCpuMetrics f s e "1m").adjustedInterval = some "5m" ∧
    (getCpuMetrics f s e "1m").data = uniquePoints f s e "1m") ∧
  (∀ (i : String) (u : List (Nat × Int)), postHocB i true u = false) ∧
  (∀ (f2 : FetchFn) (s2 e2 : Nat) (i2 : String), i2 ≠ "1m" →
    (getCpuMetrics f2 s2 e2 i2).adjustedInterval = none ∧
    fetchPhases f2 s2 e2 i2 = [(periodFor i2, planChunks s2 e2 (periodFor i2) (e2 - s2))])

/-- Claim C3: see C3Conclusion. -/
theorem spec_c3_gap_detection (f : FetchFn) (s e : Nat)
    (hdata : hasDataB (firstResults f s e "1m") = true) : C3Conclusion f s e := by
  have hpre := preemptiveB_of_hasData f s e "1m" hdata
  refine ⟨hpre, ?_, ?_, ?_, fun i u => postHocB_of_adjusted i u, ?_⟩
  · rw [fetchPhases, hpre, periodFor_1m]
    simp
  · rw [finalResults_of_not_preemptive f s e "1m" hpre, firstResults, periodFor_1m]
  · intro m hmin hm
    constructor
    · rw [getCpuMetrics]
      simp only [hpre, Bool.false_eq_true, if_false]
      rw [postHocB_fires (uniquePoints f s e "1m") m hmin hm]
      simp
    · rfl
  · intro f2 s2 e2 i2 hne
    have hp2 := preemptiveB_ne_1m f2 s2 e2 i2 hne
    constructor
    · rw [getCpuMetrics]
      simp only [hp2, Bool.false_eq_true, if_false]
      rw [postHocB_ne_1m i2 hne]
      simp
    · rw [fetchPhases, hp2]
      simp

/-- Concrete source returning exactly 3 samples spaced 300 s apart at
period 60. -/
def c3WitF : FetchFn := fun _ _ p =>
  if p == 60 then ⟨[some 0, some 300000, some 600000], [some 10, some 20, some 30]⟩
  else ⟨[], []⟩

/-- Witness for C3 at the 3-sample source of the spec scenario. -/
theorem spec_c3_gap_detection_witness :
    hasDataB (firstResults c3WitF 0 600000 "1m") = true ∧
    (computeGapsMs (uniquePoints c3WitF 0 600000 "1m")).min? = some 300000 ∧
    (getCpuMetrics c3WitF 0 600000 "1m").adjustedInterval = some "5m" ∧
    C3Conclusion c3WitF 0 600000 :=
  ⟨by decide, by decide, by decide,
   spec_c3_gap_detection c3WitF 0 600000 (by decide)⟩

/-! Output shape lemmas (claims C8 and C9). -/

lemma dedupAux_spec (l : List (Nat × Int)) : ∀ seen : List Nat,
    List.Pairwise (fun a b : Nat × Int => roundTs a.1 ≠ roundTs b.1) (dedupAux seen l) ∧
    ∀ dp ∈ dedupAux seen l, roundTs dp.1 ∉ seen := by
  induction l with
  | nil => intro seen; exact ⟨List.Pairwise.nil, by intro dp hdp; simp [dedupAux] at hdp⟩
  | cons dp rest ih =>
    intro seen
    rw [dedupAux]
    by_cases hk : roundTs dp.1 ∈ seen
    · rw [if_pos hk]
      exact ih seen
    · rw [if_neg hk]
      obtain ⟨hpw, hnotin⟩ := ih (roundTs dp.1 :: seen)
      refine ⟨List.pairwise_cons.mpr ⟨?_, hpw⟩, ?_⟩
      · intro y hy heq
        refine hnotin y hy ?_
        rw [← heq]
        exact List.mem_cons_self _ _
      · intro x hx
        rcases List.mem_cons.mp hx with h1 | h2
        · rw [h1]
          exact hk
        · intro hxs
          exact hnotin x h2 (List.mem_cons_of_mem _ hxs)

lemma dedupAux_subset : ∀ (l : List (Nat × Int)) (seen : List Nat) (x : Nat × Int),
    x ∈ dedupAux seen l → x ∈ l := by
  intro l
  induction l with
  | nil => intro seen x hx; simp [dedupAux] at hx
  | cons dp rest ih =>
    intro seen x hx
    rw [dedupAux] at hx
    by_cases hk : roundTs dp.1 ∈ seen
    · rw [if_pos hk] at hx
      exact List.mem_cons_of_mem _ (ih seen x hx)
    · rw [if_neg hk] at hx
      rcases List.mem_cons.mp hx with h1 | h2
      · rw [h1]
        exact List.mem_cons_self _ _
      · exact List.mem_cons_of_mem _ (ih _ x h2)

/-- Claim C8: for every source and input sample order, the points
returned by getCpuMetrics are sorted strictly ascending by timestamp
and their timestamps are pairwise distinct after rounding to the
nearest second (unique at 1-second granularity). -/
theorem spec_sorted_unique_c8 (f : FetchFn) (s e : Nat) (i : String) :
    List.Pairwise (fun a b : Nat × Int => a.1 < b.1 ∧ roundTs a.1 ≠ roundTs b.1)
      (getCpuMetrics f s e i).data := by
  have hdata : (getCpuMetrics f s e i).data =
      List.insertionSort tsLe
        (dedup ((finalResults f s e i).flatMap (collectSamples s e))) := rfl
  rw [hdata]
  have h1 : List.Pairwise (fun a b : Nat × Int => roundTs a.1 ≠ roundTs b.1)
      (dedup ((finalResults f s e i).flatMap (collectSamples s e))) :=
    (dedupAux_spec _ []).1
  have hperm := List.perm_insertionSort tsLe
    (dedup ((finalResults f s e i).flatMap (collectSamples s e)))
  have h2 := (List.Perm.pairwise_iff
    (fun hab => hab.symm : ∀ {a b : Nat × Int},
      roundTs a.1 ≠ roundTs b.1 → roundTs b.1 ≠ roundTs a.1) hperm).mpr h1
  have h3 : List.Pairwise tsLe (List.insertionSort tsLe
      (dedup ((finalResults f s e i).flatMap (collectSamples s e)))) :=
    List.sorted_insertionSort tsLe _
  exact (h3.and h2).imp (fun hab =>
    ⟨lt_of_le_of_ne hab.1 (fun heq => hab.2 (by rw [heq])), hab.2⟩)

lemma collectSamples_mem (s e : Nat) (r : MetricDataResult) (p : Nat × Int)
    (hp : p ∈ collectSamples s e r) :
    (s - 1000 ≤ p.1 ∧ p.1 ≤ e + 1000) ∧
    ∃ j, r.Timestamps.getD j none = some p.1 ∧ r.Values.getD j none = some p.2 := by
  rw [collectSamples] at hp
  obtain ⟨j, hjr, hj⟩ := List.mem_filterMap.mp hp
  rw [sampleAt] at hj
  split at hj
  · rename_i ts v heq1 heq2
    split at hj
    · rename_i hcond
      injection hj with hj2
      rw [← hj2]
      exact ⟨hcond, j, heq1, heq2⟩
    · exact absurd hj (by simp)
  · exact absurd hj (by simp)

/-- Conclusion of claim C9 for one output point: its timestamp is
within one second of the requested range, and it stems from an actual
entry of the aggregated results carrying that timestamp (a real Date)
and that non-null value at one index of the parallel arrays. -/
def AggregatorOk (f : FetchFn) (s e : Nat) (i : String) (p : Nat × Int) : Prop :=
  (s ≤ p.1 + 1000 ∧ p.1 ≤ e + 1000) ∧
  ∃ r ∈ finalResults f s e i, ∃ j,
    r.Timestamps.getD j none = some p.1 ∧ r.Values.getD j none = some p.2

/-- Claim C9: the aggregator discards samples with missing or null
value or an out-of-buffered-range timestamp, hence every returned
point has a non-null value originating from the fetched results and a
timestamp within one second of the requested range. -/
theorem spec_aggregator_c9 (f : FetchFn) (s e : Nat) (i : String) (p : Nat × Int)
    (hp : p ∈ (getCpuMetrics f s e i).data) : AggregatorOk f s e i p := by
  have hdata : (getCpuMetrics f s e i).data =
      List.insertionSort tsLe
        (dedup ((finalResults f s e i).flatMap (collectSamples s e))) := rfl
  rw [hdata] at hp
  have hp2 := (List.perm_insertionSort tsLe _).mem_iff.mp hp
  have hp3 := dedupAux_subset _ _ _ hp2
  obtain ⟨r, hr, hpr⟩ := List.mem_flatMap.mp hp3
  obtain ⟨⟨hb1, hb2⟩, j, hj1, hj2⟩ := collectSamples_mem s e r p hpr
  exact ⟨⟨Nat.sub_le_iff_le_add.mp hb1, hb2⟩, r, hr, j, hj1, hj2⟩

/-- Concrete source with one valid sample for the C9 witness. -/
def c9F : FetchFn := fun _ _ _ => ⟨[some 5000], [some 50]⟩

/-- Witness for C9 at a concrete source, range and point. -/
theorem spec_aggregator_c9_witness :
    ((5000, 50) : Nat × Int) ∈ (getCpuMetrics c9F 0 60000 "5m").data ∧
    AggregatorOk c9F 0 60000 "5m" (5000, 50) :=
  ⟨by decide, spec_aggregator_c9 c9F 0 60000 "5m" (5000, 50) (by decide)⟩

/-! Range planner lemmas (claim C1). -/

lemma maxDp_eq : MAX_DATAPOINTS = 1440 := rfl

lemma estDp_le_iff (a p c : Nat) (hp : 0 < p) :
    estimatedDatapoints a p ≤ c ↔ a ≤ c * (1000 * p) := by
  have hb : 0 < 1000 * p := by omega
  rw [estimatedDatapoints]
  obtain ⟨b, hbdef⟩ : ∃ b, 1000 * p = b := ⟨_, rfl⟩
  rw [hbdef] at hb ⊢
  have hdistr : Nat.succ c * b = c * b + b := Nat.succ_mul c b
  obtain ⟨m, hm⟩ : ∃ m, c * b = m := ⟨_, rfl⟩
  rw [hm] at hdistr ⊢
  constructor
  · intro h
    have h2 := (Nat.div_lt_iff_lt_mul hb).mp (Nat.lt_succ_of_le h)
    omega
  · intro h
    have h2 : a + b - 1 < Nat.succ c * b := by omega
    have h3 := (Nat.div_lt_iff_lt_mul hb).mpr h2
    omega

lemma calcQC_of_gt (r p : Nat) (h : MAX_DATAPOINTS < estimatedDatapoints r p) :
    calculateQueryChunks r p ≠ 1 := by
  rw [calculateQueryChunks, if_neg (by omega)]
  have h2 : 2 ≤ (estimatedDatapoints r p + MAX_DATAPOINTS - 1) / MAX_DATAPOINTS := by
    rw [Nat.le_div_iff_mul_le (by rw [maxDp_eq]; omega)]
    rw [maxDp_eq] at h ⊢
    omega
  omega

lemma chunkLoop_spec (dur endT : Nat) (hdur : 0 < dur) :
    ∀ (n cs : Nat), endT - cs ≤ n → cs < endT →
      (chunkLoop dur endT cs).head?.map Prod.fst = some cs ∧
      (chunkLoop dur endT cs).getLast?.map Prod.snd = some endT ∧
      List.Chain' (fun a b : Nat × Nat => a.2 = b.1) (chunkLoop dur endT cs) ∧
      ∀ c ∈ chunkLoop dur endT cs, cs ≤ c.1 ∧ c.1 < c.2 ∧ c.2 ≤ endT ∧ c.2 - c.1 ≤ dur := by
  intro n
  induction n with
  | zero => intro cs h1 h2; omega
  | succ n ih =>
    intro cs h1 h2
    have hmin_gt : cs < min (cs + dur) endT := lt_min (by omega) h2
    rw [chunkLoop, if_pos h2, dif_pos hmin_gt]
    by_cases hend : endT ≤ min (cs + dur) endT
    · rw [if_pos hend]
      have hmeq : min (cs + dur) endT = endT :=
        le_antisymm (min_le_right _ _) hend
      have hled : endT ≤ cs + dur := le_trans hend (min_le_left _ _)
      rw [hmeq]
      refine ⟨rfl, by simp, List.chain'_singleton _, ?_⟩
      intro c hc
      rw [List.mem_singleton] at hc
      subst hc
      exact ⟨le_refl _, h2, le_refl _, by omega⟩
    · rw [if_neg hend]
      push_neg at hend
      have hmeq : min (cs + dur) endT = cs + dur := by
        rcases Nat.le_total (cs + dur) endT with hle | hle
        · exact min_eq_left hle
        · have := min_eq_right hle
          omega
      rw [hmeq]
      have hcs2 : cs + dur < endT := by omega
      obtain ⟨ihh, ihl, ihc, ihv⟩ := ih (cs + dur) (by omega) hcs2
      rcases htl : chunkLoop dur endT (cs + dur) with _ | ⟨b, t⟩
      · rw [htl] at ihh
        simp at ihh
      · rw [htl] at ihh ihl ihc ihv
        have hb1 : b.1 = cs + dur := by simpa using ihh
        refine ⟨rfl, ?_, ?_, ?_⟩
        · rw [List.getLast?_cons_cons]
          exact ihl
        · exact List.chain'_cons.mpr ⟨hb1.symm, ihc⟩
        · intro c hc
          rcases List.mem_cons.mp hc with h1c | h2c
          · subst h1c
            exact ⟨le_refl _, by omega, by omega, by omega⟩
          · obtain ⟨hv1, hv2, hv3, hv4⟩ := ihv c h2c
            exact ⟨by omega, hv2, hv3, hv4⟩

lemma patchLast_id : ∀ (l : List (Nat × Nat)) (e0 : Nat),
    l.getLast?.map Prod.snd = some e0 → patchLast l e0 = l
  | [], e0 => by intro h; simp at h
  | [c], e0 => by
      intro h
      simp at h
      rw [patchLast, if_neg (by omega)]
  | c :: c2 :: t, e0 => by
      intro h
      rw [List.getLast?_cons_cons] at h
      rw [patchLast, patchLast_id (c2 :: t) e0 h]

lemma chain_lower : ∀ (l : List (Nat × Nat)) (s0 : Nat),
    l.head?.map Prod.fst = some s0 →
    List.Chain' (fun a b : Nat × Nat => a.2 = b.1) l →
    (∀ c ∈ l, c.1 ≤ c.2) →
    ∀ c ∈ l, s0 ≤ c.1
  | [], s0 => by intro h _ _ c hc; exact absurd hc (List.not_mem_nil c)
  | [a], s0 => by
      intro hh _ _ c hc
      rw [List.mem_singleton] at hc
      subst hc
      simp at hh
      omega
  | a :: b :: t, s0 => by
      intro hh hchain hvalid c hc
      have ha1 : a.1 = s0 := by simpa using hh
      obtain ⟨hab, hch2⟩ := List.chain'_cons.mp hchain
      rcases List.mem_cons.mp hc with h1 | h2
      · subst h1
        omega
      · have hrec := chain_lower (b :: t) b.1 (by simp) hch2
          (fun x hx => hvalid x (List.mem_cons_of_mem _ hx)) c h2
        have hav : a.1 ≤ a.2 := hvalid a (List.mem_cons_self _ _)
        omega

lemma chain_upper : ∀ (l : List (Nat × Nat)) (e0 : Nat),
    l.getLast?.map Prod.snd = some e0 →
    List.Chain' (fun a b : Nat × Nat => a.2 = b.1) l →
    (∀ c ∈ l, c.1 ≤ c.2) →
    ∀ c ∈ l, c.2 ≤ e0
  | [], e0 => by intro h _ _ c hc; exact absurd hc (List.not_mem_nil c)
  | [a], e0 => by
      intro hl _ _ c hc
      rw [List.mem_singleton] at hc
      subst hc
      simp at hl
      omega
  | a :: b :: t, e0 => by
      intro hl hchain hvalid c hc
      rw [List.getLast?_cons_cons] at hl
      obtain ⟨hab, hch2⟩ := List.chain'_cons.mp hchain
      have hrec := chain_upper (b :: t) e0 hl hch2
        (fun x hx => hvalid x (List.mem_cons_of_mem _ hx))
      rcases List.mem_cons.mp hc with h1 | h2
      · subst h1
        have hbv : b.1 ≤ b.2 := hvalid b (List.mem_cons_of_mem _ (List.mem_cons_self _ _))
        have hb2 : b.2 ≤ e0 := hrec b (List.mem_cons_self _ _)
        omega
      · exact hrec c h2

lemma chain_pairwise : ∀ (l : List (Nat × Nat)),
    List.Chain' (fun a b : Nat × Nat => a.2 = b.1) l →
    (∀ c ∈ l, c.1 ≤ c.2) →
    List.Pairwise (fun a b : Nat × Nat => a.2 ≤ b.1) l
  | [] => by intro _ _; exact List.Pairwise.nil
  | [a] => by intro _ _; simp
  | a :: b :: t => by
      intro hchain hvalid
      obtain ⟨hab, hch2⟩ := List.chain'_cons.mp hchain
      have hrec := chain_pairwise (b :: t) hch2
        (fun x hx => hvalid x (List.mem_cons_of_mem _ hx))
      refine List.pairwise_cons.mpr ⟨?_, hrec⟩
      intro y hy
      have hlow := chain_lower (b :: t) b.1 (by simp) hch2
        (fun x hx => hvalid x (List.mem_cons_of_mem _ hx)) y hy
      omega

lemma chain_mem_cover : ∀ (l : List (Nat × Nat)) (s0 e0 t : Nat),
    l.head?.map Prod.fst = some s0 →
    l.getLast?.map Prod.snd = some e0 →
    List.Chain' (fun a b : Nat × Nat => a.2 = b.1) l →
    s0 ≤ t → t ≤ e0 → ∃ c ∈ l, c.1 ≤ t ∧ t ≤ c.2
  | [], s0, e0, t => by intro h; simp at h
  | [a], s0, e0, t => by
      intro hh hl _ h1 h2
      simp at hh hl
      exact ⟨a, List.mem_singleton_self a, by omega, by omega⟩
  | a :: b :: tl, s0, e0, t => by
      intro hh hl hchain h1 h2
      have ha1 : a.1 = s0 := by simpa using hh
      rw [List.getLast?_cons_cons] at hl
      obtain ⟨hab, hch2⟩ := List.chain'_cons.mp hchain
      by_cases hta : t ≤ a.2
      · exact ⟨a, List.mem_cons_self _ _, by omega, hta⟩
      · obtain ⟨c, hc, hc1, hc2⟩ := chain_mem_cover (b :: tl) b.1 e0 t (by simp) hl hch2
          (by omega) h2
        exact ⟨c, List.mem_cons_of_mem _ hc, hc1, hc2⟩

/-- Conclusion of claim C1: the chunk plan for a range with start
before end and a positive period is a single chunk exactly when the
estimated datapoint count is at most 1440; the plan is a contiguous
chain (each chunk ends where the next starts), pairwise non-overlapping
except at shared boundary instants (earlier chunks end no later than
later chunks start), every chunk is non-degenerate with duration at
most 1440 * period seconds (so estimated datapoints duration/period at
most 1440), and the chunks cover exactly the requested range: an
instant lies in the range exactly when it lies in some chunk. -/
def RangePlanOk (s e p : Nat) : Prop :=
  (estimatedDatapoints (e - s) p ≤ MAX_DATAPOINTS → planChunks s e p (e - s) = [(s, e)]) ∧
  List.Chain' (fun a b : Nat × Nat => a.2 = b.1) (planChunks s e p (e - s)) ∧
  List.Pairwise (fun a b : Nat × Nat => a.2 ≤ b.1) (planChunks s e p (e - s)) ∧
  (∀ c ∈ planChunks s e p (e - s), c.1 < c.2 ∧ c.2 - c.1 ≤ MAX_DATAPOINTS * p * 1000) ∧
  (∀ t, (s ≤ t ∧ t ≤ e) ↔ ∃ c ∈ planChunks s e p (e - s), c.1 ≤ t ∧ t ≤ c.2)

/-- Claim C1: see RangePlanOk. -/
theorem spec_range_planner_c1 (s e p : Nat) (hse : s < e) (hp : 0 < p) :
    RangePlanOk s e p := by
  unfold RangePlanOk
  by_cases hsingle : estimatedDatapoints (e - s) p ≤ MAX_DATAPOINTS
  · have hplan : planChunks s e p (e - s) = [(s, e)] := by
      rw [planChunks, if_pos (by rw [calculateQueryChunks, if_pos hsingle])]
    rw [hplan]
    have hdur : e - s ≤ MAX_DATAPOINTS * p * 1000 := by
      have hb := (estDp_le_iff (e - s) p MAX_DATAPOINTS hp).mp hsingle
      have heq : MAX_DATAPOINTS * (1000 * p) = MAX_DATAPOINTS * p * 1000 := by ring
      omega
    refine ⟨fun _ => rfl, List.chain'_singleton _, by simp, ?_, ?_⟩
    · intro c hc
      rw [List.mem_singleton] at hc
      subst hc
      exact ⟨hse, hdur⟩
    · intro t
      constructor
      · rintro ⟨h1, h2⟩
        exact ⟨(s, e), List.mem_singleton_self _, h1, h2⟩
      · rintro ⟨c, hc, h1, h2⟩
        rw [List.mem_singleton] at hc
        subst hc
        exact ⟨h1, h2⟩
  · push_neg at hsingle
    have hne1 : calculateQueryChunks (e - s) p ≠ 1 := calcQC_of_gt (e - s) p hsingle
    have hdurpos : 0 < MAX_DATAPOINTS * p * 1000 := by
      rw [maxDp_eq]
      positivity
    obtain ⟨hh, hl, hcn, hv⟩ :=
      chunkLoop_spec (MAX_DATAPOINTS * p * 1000) e hdurpos (e - s) s (le_refl _) hse
    have hnn : chunkLoop (MAX_DATAPOINTS * p * 1000) e s ≠ [] := by
      intro h0
      rw [h0] at hh
      simp at hh
    have hplan : planChunks s e p (e - s) = chunkLoop (MAX_DATAPOINTS * p * 1000) e s := by
      rw [planChunks, if_neg hne1]
      simp only []
      rw [if_neg hnn]
      exact patchLast_id _ e hl
    rw [hplan]
    have hvalid : ∀ c ∈ chunkLoop (MAX_DATAPOINTS * p * 1000) e s, c.1 ≤ c.2 :=
      fun c hc => (hv c hc).2.1.le
    refine ⟨fun hcontra => absurd hcontra (Nat.not_le.mpr hsingle), hcn,
      chain_pairwise _ hcn hvalid, ?_, ?_⟩
    · intro c hc
      exact ⟨(hv c hc).2.1, (hv c hc).2.2.2⟩
    · intro t
      constructor
      · rintro ⟨h1, h2⟩
        exact chain_mem_cover _ s e t hh hl hcn h1 h2
      · rintro ⟨c, hc, h1, h2⟩
        have hlo := chain_lower _ s hh hcn hvalid c hc
        have hup := chain_upper _ e hl hcn hvalid c hc
        omega

/-- Witness for C1 at the 2-day range, 60-second period scenario: the
plan splits into the two expected day-long chunks (2880 estimated
datapoints, 1440 per chunk) and satisfies RangePlanOk. -/
theorem spec_range_planner_c1_witness :
    (0 : Nat) < 172800000 ∧ (0 : Nat) < 60 ∧
    planChunks 0 172800000 60 172800000 = [(0, 86400000), (86400000, 172800000)] ∧
    RangePlanOk 0 172800000 60 := by
  refine ⟨by decide, by decide, ?_, spec_range_planner_c1 0 172800000 60 (by decide) (by decide)⟩
  have hloop : chunkLoop 86400000 172800000 0 = [(0, 86400000), (86400000, 172800000)] := by
    rw [chunkLoop]
    rw [if_pos (by norm_num), dif_pos (by norm_num), if_neg (by norm_num)]
    rw [chunkLoop]
    rw [if_pos (by norm_num), dif_pos (by norm_num), if_pos (by norm_num)]
    norm_num
  have hdur : MAX_DATAPOINTS * 60 * 1000 = 86400000 := by rw [maxDp_eq]
  rw [planChunks, if_neg (by decide)]
  simp only []
  rw [hdur, hloop]
  decide

end Ec2Metrics
